import Mathlib

/-!
Verification of the brew build-manifest orchestration engine
(`contrib/brew/brew/brew.py` and `contrib/brew/brew/git.py`).

The Python program is shallowly embedded as pure Lean functions.  External
collaborators (the docker daemon, the dulwich git transport, the filesystem)
are modelled by an oracle structure `World` of pure functions saying, for
each primitive operation, whether it succeeds and what it returns; every
call the program makes to a collaborator is recorded in an event trace
(`Ev`).  Python exceptions become `Except String`; the module-level mutable
dictionaries `processed` / `processed_folders` become an explicit state
record `St` threaded through the functions exactly as the source mutates
them.  Python dictionaries are modelled as insertion-ordered association
lists with assign-or-append update (`aset`) and first-match lookup (`aget`).
-/

namespace Brew

/-! ### Python string primitives -/

/-- Python `s.startswith(p)`, on the underlying character lists. -/
def pyStartsWith (s p : String) : Bool := p.data.isPrefixOf s.data

/-- Python slicing `s[n:]`. -/
def pyDrop (s : String) (n : Nat) : String := ⟨s.data.drop n⟩

/-- Accumulator pass for `pysplit`: `acc` holds the current field reversed. -/
def pysplitAux : List Char → List Char → List String
  | [], acc => if acc.isEmpty then [] else [String.mk acc.reverse]
  | c :: cs, acc =>
    if c.isWhitespace then
      if acc.isEmpty then pysplitAux cs [] else String.mk acc.reverse :: pysplitAux cs []
    else
      pysplitAux cs (c :: acc)

/-- Python `line.split()` with no argument: split on runs of whitespace,
dropping empty fields (so a blank or whitespace-only line yields `[]`). -/
def pysplit (s : String) : List String := pysplitAux s.data []

/-- Python `str` formatting of a value that is either a string or `None`
(`'{0}'.format(None)` is the string `"None"`). -/
def pyStrOpt : Option String → String
  | none => "None"
  | some s => s

/-! ### Association lists with Python-dict semantics -/

/-- First-match lookup, `d[k]` / `k in d`. -/
def aget {α : Type} : List (String × α) → String → Option α
  | [], _ => none
  | (k, v) :: t, k' => if k = k' then some v else aget t k'

/-- Assignment `d[k] = v`: replace in place if present, else append. -/
def aset {α : Type} : List (String × α) → String → α → List (String × α)
  | [], k, v => [(k, v)]
  | (k', v') :: t, k, v => if k' = k then (k, v) :: t else (k', v') :: aset t k v

/-! ### Events, world oracle, program state -/

/-- One call to an external collaborator, or one report-outcome recording.
`outcome` events instrument the two `summary.add_*` call sites so that
"every entry receives exactly one outcome" is a statement about the trace. -/
inductive Ev
  | fetch (url : String)
  | checkout (rep ref : String)
  | build (path : String)
  | tagop (img repo : String) (t : Option String)
  | push (repo : String)
  | pull (name : String)
  | outcome (file : String) (line : Nat) (ok : Bool)
deriving DecidableEq

/-- Oracle for all external collaborators.  `refOk rep ref` says whether the
ref/commit `ref` resolves in repository `rep` (covering both the
`remote_refs[ref]` lookup and `rep.commit(ref)` of `git.py`);
`hasDockerfile path ref` / `buildRes path ref` describe the working tree at
`path` after `ref` has been checked out (checkout mutates the tree in
place, so the tree content is a function of the last checked-out ref). -/
structure World where
  daemonOk : Bool
  fetchOk : String → Bool
  refOk : String → String → Bool
  hasDockerfile : String → String → Bool
  buildRes : String → String → Option String
  pullOk : String → Bool
  tagOk : String → String → Option String → Bool
  pushOk : String → Bool
  listdir : String → Option (List String)
  readFile : String → List String

/-- A value of the module-level `processed` dictionary: the source stores
repository handles under the key `url` and image ids under the key
`url@ref` in the same dict. -/
inductive CacheVal
  | handle (h : String)
  | img (i : String)
deriving DecidableEq

/-- The raw Python value behind a `processed` entry (used where the source
reads `processed[...]` without knowing which kind it stored). -/
def CacheVal.str : CacheVal → String
  | .handle h => h
  | .img i => i

/-- The module-level mutable globals of `brew.py`:
`processed = {}` and `processed_folders = []`, initialised once at import
time and never reset by `build_library`. -/
structure St where
  processed : List (String × CacheVal)
  processed_folders : List String
deriving DecidableEq

/-- State at module import. -/
def St.init : St := ⟨[], []⟩

/-! ### The git module (`git.py`) -/

namespace Git

/-- `git.clone(repo_url, ref, folder)`.  `get_transport_and_path` raises on
a `None` url before any network traffic; a transport failure raises after
the fetch was attempted; an unresolvable ref raises after the fetch but
before the index is built.  On success the handle is identified with the
url and the fresh temporary folder with `"tmp:" ++ url`. -/
def clone (w : World) (repo_url : Option String) (ref : Option String) :
    Except String (String × String) × List Ev :=
  match repo_url with
  | none => (.error "get_transport_and_path: url is not a string", [])
  | some u =>
    let r := match ref with | none => "refs/heads/master" | some s => s
    if w.fetchOk u then
      if w.refOk u r then
        (.ok (u, "tmp:" ++ u), [Ev.fetch u, Ev.checkout u r])
      else
        (.error "ref not found", [Ev.fetch u])
    else
      (.error "fetch failed", [Ev.fetch u])

/-- `git.checkout(rep, ref)`: in-place checkout on an existing handle;
returns `rep.path` (the handle's working folder). -/
def checkout (w : World) (rep : String) (ref : Option String) :
    Except String String × List Ev :=
  let r := match ref with | none => "refs/heads/master" | some s => s
  if w.refOk rep r then
    (.ok ("tmp:" ++ rep), [Ev.checkout rep r])
  else
    (.error "ref not found", [])

end Git

/-! ### The run report (`class Summary`) -/

/-- The per-line data dict: `{'line': lineno, 'id': img_id}` or
`{'line': lineno, 'exc': str(exc)}`. -/
inductive Outcome
  | success (line : Nat) (id : String)
  | failure (line : Nat) (exc : String)
deriving DecidableEq

/-- `Summary.__init__`: `self._summary = {}` (a dict from image name to a
dict from raw line text to the data dict) and `self._has_exc = False`. -/
structure Summary where
  summary : List (String × List (String × Outcome))
  has_exc : Bool
deriving DecidableEq

def Summary.init : Summary := ⟨[], false⟩

/-- `Summary._add_data(image, linestr, data)`: note the inner dict is keyed
by the raw line text `linestr`, not by the line number. -/
def Summary.add_data (s : Summary) (image linestr : String) (d : Outcome) : Summary :=
  match aget s.summary image with
  | none => ⟨aset s.summary image [(linestr, d)], s.has_exc⟩
  | some lines => ⟨aset s.summary image (aset lines linestr d), s.has_exc⟩

/-- `Summary.add_exception(image, (lineno, linestr), exc)`. -/
def Summary.add_exception (s : Summary) (image : String) (line : Nat × String)
    (exc : String) : Summary :=
  let s' := s.add_data image line.2 (.failure line.1 exc)
  ⟨s'.summary, true⟩

/-- `Summary.add_success(image, (lineno, linestr), img_id)`. -/
def Summary.add_success (s : Summary) (image : String) (line : Nat × String)
    (img : String) : Summary :=
  s.add_data image line.2 (.success line.1 img)

/-- Lookup of the outcome stored for `(image, linestr)`. -/
def Summary.find (s : Summary) (image linestr : String) : Option Outcome :=
  match aget s.summary image with
  | none => none
  | some lines => aget lines linestr

/-! ### Manifest-line parsing and revision resolution (`build_library`, inline) -/

/-- The three per-line variables `url`, `tag`, `ref` computed by the
line-parsing block of `build_library` (`url = None; ref =
'refs/heads/master'; tag = None` then overwritten by field count). -/
structure Parsed where
  url : Option String
  tag : Option String
  ref : String
deriving DecidableEq

/-- The third-field branch of `build_library`: `B:`/`T:`/`C:` prefixes, any
other prefix raises `RuntimeError`. -/
def resolveSpec (s : String) : Except String String :=
  if pyStartsWith s "B:" then .ok ("refs/heads/" ++ pyDrop s 2)
  else if pyStartsWith s "T:" then .ok ("refs/tags/" ++ pyDrop s 2)
  else if pyStartsWith s "C:" then .ok (pyDrop s 2)
  else .error "Incorrect line format, please refer to the docs"

/-- Revision resolution as a function of the optional third field: the
initial value `ref = 'refs/heads/master'` is kept when no third field is
present, otherwise the third-field branch runs. -/
def resolveRev : Option String → Except String String
  | none => .ok "refs/heads/master"
  | some s => resolveSpec s

/-- The whole per-line parsing block: `args = line.split()`, the
`len(args) > 3` guard, the field-count assignments and the third-field
resolution.  A blank line has `args = []` and keeps `url = None`,
`tag = None`, `ref = 'refs/heads/master'` — it is NOT skipped. -/
def parseLine (line : String) : Except String Parsed :=
  match pysplit line with
  | [] => .ok ⟨none, none, "refs/heads/master"⟩
  | [a] => .ok ⟨some a, none, "refs/heads/master"⟩
  | [a, b] => .ok ⟨some b, some a, "refs/heads/master"⟩
  | [a, b, c] =>
    match resolveSpec c with
    | .ok r => .ok ⟨some b, some a, r⟩
    | .error e => .error e
  | _ => .error "Incorrect line format, please refer to the docs"

/-! ### `build_repo` -/

/-- `'{0}/{1}'.format(namespace or 'library', docker_repo)`; Python `or`
treats both `None` and the empty string as falsy. -/
def dockerRepoName (nmspace : Option String) (docker_repo : String) : String :=
  (match nmspace with
   | none => "library"
   | some s => if s = "" then "library" else s) ++ "/" ++ docker_repo

/-- The tail of `build_repo`: `client.tag(img_id, docker_repo, docker_tag)`,
then, when pushing, the extra registry-qualified tag and the push. -/
def tagAndPush (w : World) (img docker_repo : String) (docker_tag : Option String)
    (push : Bool) (registry : Option String) : Except String String × List Ev :=
  let e1 := [Ev.tagop img docker_repo docker_tag]
  if w.tagOk img docker_repo docker_tag then
    if push then
      match registry with
      | some reg =>
        let dr := reg ++ "/" ++ docker_repo
        let e2 := e1 ++ [Ev.tagop img dr docker_tag]
        if w.tagOk img dr docker_tag then
          let e3 := e2 ++ [Ev.push dr]
          if w.pushOk dr then (.ok img, e3) else (.error "push failed", e3)
        else
          (.error "tag failed", e2)
      | none =>
        let e3 := e1 ++ [Ev.push docker_repo]
        if w.pushOk docker_repo then (.ok img, e3) else (.error "push failed", e3)
    else
      (.ok img, e1)
  else
    (.error "tag failed", e1)

/-- The BuildKey string `'{0}@{1}'.format(repository, ref)` used both for
`build_repo`'s cache lookup and for the recording in `build_library`. -/
def buildKey (repository : Option String) (ref : String) : String :=
  pyStrOpt repository ++ "@" ++ ref

/-- The clone-or-checkout block of `build_repo`:
`if repository not in processed:` clone, register the handle under the key
`repository` and append the fresh folder to `processed_folders`;
`else:` in-place checkout on the stored handle.  Returns the working
folder (Python `dst_folder`). -/
def fetchOrReuse (w : World) (repository : Option String) (ref : String) (st : St) :
    Except String String × St × List Ev :=
  match (match repository with | none => none | some u => aget st.processed u) with
  | none =>
    let c := Git.clone w repository (some ref)
    match c.1 with
    | .ok rf =>
      (.ok rf.2,
       ⟨aset st.processed (pyStrOpt repository) (.handle rf.1),
        st.processed_folders ++ [rf.2]⟩,
       c.2)
    | .error e => (.error e, st, c.2)
  | some v =>
    let co := Git.checkout w (CacheVal.str v) (some ref)
    match co.1 with
    | .ok folder => (.ok folder, st, co.2)
    | .error e => (.error e, st, co.2)

/-- `build_repo(repository, ref, docker_repo, docker_tag, namespace, push,
registry)`.  The cache key is `'{0}@{1}'.format(repository, ref)`; the
handle key is `repository` itself.  The handle is registered immediately
after a successful clone; the image id is NOT recorded here (the caller
records it only after `build_repo` returns, i.e. after tag and push). -/
def build_repo (w : World) (repository : Option String) (ref : String)
    (docker_repo : String) (docker_tag : Option String) (nmspace : Option String)
    (push : Bool) (registry : Option String) (st : St) :
    Except String String × St × List Ev :=
  let dr := dockerRepoName nmspace docker_repo
  match aget st.processed (buildKey repository ref) with
  | some v =>
    -- `img_id = processed['{0}@{1}'.format(repository, ref)]`
    let tp := tagAndPush w (CacheVal.str v) dr docker_tag push registry
    (tp.1, st, tp.2)
  | none =>
    let fs := fetchOrReuse w repository ref st
    match fs.1 with
    | .error e => (.error e, fs.2.1, fs.2.2)
    | .ok folder =>
      if w.hasDockerfile folder ref then
        match w.buildRes folder ref with
        | some img =>
          let tp := tagAndPush w img dr docker_tag push registry
          (tp.1, fs.2.1, fs.2.2 ++ [Ev.build folder] ++ tp.2)
        | none => (.error "build failed", fs.2.1, fs.2.2 ++ [Ev.build folder])
      else
        (.error "Dockerfile not found in cloned repository", fs.2.1, fs.2.2)

/-! ### The per-line body of `build_library`'s loop -/

/-- One iteration of `for line in f`: parse, optional prefill pull, call
`build_repo`, then `summary.add_success` and `processed[url@ref] = img`,
with the whole pipeline wrapped in `try/except` that turns any exception
into `summary.add_exception`.  An `Ev.outcome` event marks which of the two
recordings happened. -/
def process_line (w : World) (prefill : Bool) (nmspace : Option String)
    (push : Bool) (registry : Option String) (buildfile : String)
    (linecnt : Nat) (line : String) (st : St) (summary : Summary) :
    St × Summary × List Ev :=
  let body : Except String (String × String) × St × List Ev :=
    match parseLine line with
    | .error e => (.error e, st, [])
    | .ok p =>
      let pullEvs : List Ev := if prefill then [Ev.pull buildfile] else []
      if prefill && !w.pullOk buildfile then
        -- `client.pull(buildfile)` raised, caught by the per-line handler
        (.error "pull failed", st, pullEvs)
      else
        let br := build_repo w p.url p.ref buildfile p.tag nmspace push registry st
        match br.1 with
        | .ok img =>
          (.ok (img, buildKey p.url p.ref), br.2.1, pullEvs ++ br.2.2)
        | .error e => (.error e, br.2.1, pullEvs ++ br.2.2)
  match body.1 with
  | .ok ik =>
    (⟨aset body.2.1.processed ik.2 (.img ik.1), body.2.1.processed_folders⟩,
     summary.add_success buildfile (linecnt, line) ik.1,
     body.2.2 ++ [Ev.outcome buildfile linecnt true])
  | .error e =>
    (body.2.1, summary.add_exception buildfile (linecnt, line) e,
     body.2.2 ++ [Ev.outcome buildfile linecnt false])

/-! ### The file and session loops of `build_library` -/

/-- `for line in f` with `linecnt = linecnt + 1` at the top of each
iteration; `c` is the value of `linecnt` before the remaining lines. -/
def process_lines (w : World) (prefill : Bool) (nmspace : Option String)
    (push : Bool) (registry : Option String) (buildfile : String)
    (c : Nat) : List String → St → Summary → St × Summary × List Ev
  | [], st, summary => (st, summary, [])
  | l :: ls, st, summary =>
    let r1 := process_line w prefill nmspace push registry buildfile (c + 1) l st summary
    let r2 := process_lines w prefill nmspace push registry buildfile (c + 1) ls r1.1 r1.2.1
    (r2.1, r2.2.1, r1.2.2 ++ r2.2.2)

/-- `for buildfile in dirlist`, skipping the `MAINTAINERS` sentinel, reading
each manifest file and iterating its lines. -/
def process_files (w : World) (prefill : Bool) (nmspace : Option String)
    (push : Bool) (registry : Option String) (dst_folder : String) :
    List String → St → Summary → St × Summary × List Ev
  | [], st, summary => (st, summary, [])
  | f :: fs, st, summary =>
    if f = "MAINTAINERS" then
      process_files w prefill nmspace push registry dst_folder fs st summary
    else
      let lines := w.readFile (dst_folder ++ "/library/" ++ f)
      let r1 := process_lines w prefill nmspace push registry f 0 lines st summary
      let r2 := process_files w prefill nmspace push registry dst_folder fs r1.1 r1.2.1
      (r2.1, r2.2.1, r1.2.2 ++ r2.2.2)

/-- How a `build_library` call ends: an early `return` with no report
printed (`aborted`), an uncaught exception (`crashed`), or the normal path
that prints the summary (`done`). -/
inductive RunOutcome
  | aborted
  | crashed
  | done (s : Summary)
deriving DecidableEq

def DEFAULT_REPOSITORY : String := "git://github.com/dotcloud/docker"

def DEFAULT_BRANCH : String := "master"

/-- `build_library(repository, branch, namespace, push, debug, prefill,
registry)`.  `debug` only changes the log level and is omitted.  The
function reads and writes the module-level `processed` /
`processed_folders` state `st` and never resets it.  When the manifest
source is a URL, `dst_folder = git.clone_branch(...)` binds the `(rep,
folder)` TUPLE returned by `git.clone`, so the following
`os.path.join(dst_folder, 'library')` raises an uncaught `TypeError`
(`crashed`); for a local path the listing proceeds.  The final
`rmtree` cleanup removes directories on disk but clears neither
`processed` nor `processed_folders`. -/
def build_library (w : World) (repository branch nmspace : Option String)
    (push : Bool) (prefill : Bool) (registry : Option String) (st : St) :
    RunOutcome × St × List Ev :=
  let repo := match repository with | none => DEFAULT_REPOSITORY | some r => r
  let branch' := match branch with | none => DEFAULT_BRANCH | some b => b
  if !w.daemonOk then (.aborted, st, []) else
  if pyStartsWith repo "https://" || pyStartsWith repo "git://" then
    match Git.clone w (some repo) (some ("refs/heads/" ++ branch')) with
    | (.error _, evs) => (.aborted, st, evs)
    | (.ok _, evs) => (.crashed, st, evs)
  else
    -- local path: `dst_folder = repository`
    match w.listdir (repo ++ "/library") with
    | none => (.aborted, st, [])
    | some dirlist =>
      let r := process_files w prefill nmspace push registry repo dirlist st Summary.init
      (.done r.2.1, r.1, r.2.2)

/-! ### Trace observations -/

/-- Number of `client.fetch` calls for `u` in a trace. -/
def fetchCount (evs : List Ev) (u : String) : Nat :=
  (evs.filter fun e => match e with | .fetch v => v == u | _ => false).length

/-- Number of checkout operations (index builds) on the handle of `u`. -/
def checkoutCount (evs : List Ev) (u : String) : Nat :=
  (evs.filter fun e => match e with | .checkout v _ => v == u | _ => false).length

/-- Number of `client.build` calls in a trace. -/
def buildCount (evs : List Ev) : Nat :=
  (evs.filter fun e => match e with | .build _ => true | _ => false).length

/-- Is the event a fetch, checkout or build? -/
def isRepoWork : Ev → Bool
  | .fetch _ => true
  | .checkout _ _ => true
  | .build _ => true
  | _ => false

/-- The report recordings of a trace: `(file, lineno, success?)`. -/
def outcomeEvents (evs : List Ev) : List (String × Nat × Bool) :=
  evs.filterMap fun e => match e with
    | .outcome f n ok => some (f, n, ok)
    | _ => none

/-! ### Concrete worlds and scenario inputs -/

/-- A collaborator oracle: the three booleans govern fetches, prefill pulls
and tag operations; everything else succeeds, every build produces the
image id `"I"`, and `manifest` gives the library files of the local
manifest source mounted at `/m`. -/
def mkWorld (fetch pull tagok : Bool) (manifest : List (String × List String)) : World :=
  ⟨true, fun _ => fetch, fun _ _ => true, fun _ _ => true, fun _ _ => some "I",
   fun _ => pull, fun _ _ _ => tagok, fun _ => true,
   (fun p => if p = "/m/library" then some (manifest.map Prod.fst) else none),
   (fun p =>
     match manifest.find? fun q => "/m/library/" ++ q.1 = p with
     | some q => q.2
     | none => [])⟩

/-- Everything succeeds; one manifest file `img` with the same line twice. -/
def wTwice : World := mkWorld true true true [("img", ["u\n", "u\n"])]

/-- Prefill pulls fail; one entry. -/
def wPullFail : World := mkWorld true false true [("img", ["u\n"])]

/-- Fetches fail; two entries for the same source URL. -/
def wFetchFail : World := mkWorld false true true [("img", ["t1 u\n", "t2 u\n"])]

/-- Everything succeeds; the manifest file holds a single blank line. -/
def wBlank : World := mkWorld true true true [("img", ["\n"])]

/-- Tag operations fail; two entries with the same BuildKey
`(u, refs/heads/master)` but different docker tags. -/
def wTagFail : World := mkWorld true true false [("img", ["t u\n", "s u\n"])]

/-- Everything succeeds; a single one-entry manifest (used to run
`build_library` twice in a row against the shared module state). -/
def wOnce : World := mkWorld true true true [("img", ["u\n"])]

/-! ### Derived notions used to state the cache claims -/

/-- All collaborator operations succeed and every build returns an image. -/
def AllOk (w : World) : Prop :=
  (∀ u, w.fetchOk u = true) ∧ (∀ u r, w.refOk u r = true) ∧
  (∀ f r, w.hasDockerfile f r = true) ∧ (∀ f r, w.buildRes f r ≠ none) ∧
  (∀ n, w.pullOk n = true) ∧ (∀ i d t, w.tagOk i d t = true) ∧
  (∀ d, w.pushOk d = true)

/-- The image id a successful build of `u` at `ref` produces. -/
def imgOf (w : World) (u ref : String) : String :=
  (w.buildRes ("tmp:" ++ u) ref).getD ""

/-- The source URL and resolved revision of a manifest line, when the line
parses and names a URL. -/
def lineKey (line : String) : Option (String × String) :=
  match parseLine line with
  | .ok ⟨some u, _, r⟩ => some (u, r)
  | _ => none

/-- Append `r` unless already seen (first-occurrence order). -/
def insertNew (rs : List String) (r : String) : List String :=
  if r ∈ rs then rs else rs ++ [r]

/-- The distinct resolved revisions of `lines`, in order of first
occurrence, continuing the already-seen list `rs`. -/
def accumRefs (rs : List String) : List String → List String
  | [] => rs
  | l :: ls =>
    accumRefs (match lineKey l with
               | some (_, r) => insertNew rs r
               | none => rs) ls

/-- The `processed` dictionary after entries of the single URL `u` at the
distinct revisions `rs` (in first-occurrence order) have been built:
one handle entry and one image entry per revision. -/
def procState (w : World) (u : String) (rs : List String) : List (String × CacheVal) :=
  (u, CacheVal.handle u) :: rs.map fun r => (u ++ "@" ++ r, CacheVal.img (imgOf w u r))

/-! ## Lemmas about the dictionary model -/

@[simp] theorem aget_nil {α : Type} (k : String) :
    aget ([] : List (String × α)) k = none := rfl

theorem aget_aset_self {α : Type} (m : List (String × α)) (k : String) (v : α) :
    aget (aset m k v) k = some v := by
  induction m with
  | nil => simp [aget, aset]
  | cons p t ih =>
    obtain ⟨k', v'⟩ := p
    by_cases h : k' = k <;> simp [aget, aset, h, ih]

theorem aget_aset_ne {α : Type} (m : List (String × α)) (k k' : String) (v : α)
    (h : k ≠ k') : aget (aset m k v) k' = aget m k' := by
  induction m with
  | nil => simp [aget, aset, h]
  | cons p t ih =>
    obtain ⟨k₀, v₀⟩ := p
    by_cases h₀ : k₀ = k
    · subst h₀
      simp [aget, aset, h]
    · simp [aset, h₀]
      by_cases h₁ : k₀ = k' <;> simp [aget, h₁, ih]

theorem aset_eq_of_aget {α : Type} (m : List (String × α)) (k : String) (v : α)
    (h : aget m k = some v) : aset m k v = m := by
  induction m with
  | nil => simp [aget] at h
  | cons p t ih =>
    obtain ⟨k₀, v₀⟩ := p
    by_cases h₀ : k₀ = k
    · subst h₀
      simp [aget] at h
      simp [aset, h]
    · simp [aget, h₀] at h
      simp [aset, h₀, ih h]

theorem aset_append_of_aget_none {α : Type} (m : List (String × α)) (k : String) (v : α)
    (h : aget m k = none) : aset m k v = m ++ [(k, v)] := by
  induction m with
  | nil => simp [aset]
  | cons p t ih =>
    obtain ⟨k₀, v₀⟩ := p
    by_cases h₀ : k₀ = k
    · subst h₀
      simp [aget] at h
    · simp [aget, h₀] at h
      simp [aset, h₀, ih h]

theorem aget_aset_isSome {α : Type} (m : List (String × α)) (k k' : String) (v : α)
    (h : (aget m k').isSome) : (aget (aset m k v) k').isSome := by
  by_cases hk : k = k'
  · subst hk
    simp [aget_aset_self]
  · rwa [aget_aset_ne m k k' v hk]

/-! ## Lemmas about the Python string primitives -/

theorem pyStartsWith_append (p s : String) : pyStartsWith (p ++ s) p = true := by
  rw [pyStartsWith, String.data_append, List.isPrefixOf_iff_prefix]
  exact List.prefix_append _ _

theorem pyDrop_append (p s : String) : pyDrop (p ++ s) p.length = s := by
  rw [pyDrop, String.data_append, show p.length = p.data.length from rfl, List.drop_left]

theorem pyStartsWith_cons_ne (s p : String) (a b : Char) (as bs : List Char)
    (hs : s.data = a :: as) (hp : p.data = b :: bs) (h : (b == a) = false) :
    pyStartsWith s p = false := by
  rw [pyStartsWith, hs, hp]
  simp [List.isPrefixOf, h]

/-! ## C6: revision resolution -/

/-- C6: revision resolution is the total function: absent spec resolves to
`refs/heads/master`, `B:`/`T:`/`C:` prefixes resolve as specified, and a
3-field line whose third token has any other prefix raises, giving that
entry a Failure outcome. -/
theorem claim_C6 :
    resolveRev none = .ok "refs/heads/master"
  ∧ (∀ n, resolveRev (some ("B:" ++ n)) = .ok ("refs/heads/" ++ n))
  ∧ (∀ n, resolveRev (some ("T:" ++ n)) = .ok ("refs/tags/" ++ n))
  ∧ (∀ n, resolveRev (some ("C:" ++ n)) = .ok n)
  ∧ (∀ s, pyStartsWith s "B:" = false → pyStartsWith s "T:" = false →
      pyStartsWith s "C:" = false →
      resolveRev (some s) = .error "Incorrect line format, please refer to the docs")
  ∧ (∀ w prefill ns push reg buildfile linecnt line a b c e st summary,
      pysplit line = [a, b, c] → resolveSpec c = .error e →
      process_line w prefill ns push reg buildfile linecnt line st summary =
        (st, Summary.add_exception summary buildfile (linecnt, line) e,
         [Ev.outcome buildfile linecnt false])) := by
  refine ⟨rfl, ?_, ?_, ?_, ?_, ?_⟩
  · intro n
    simp [resolveRev, resolveSpec, pyStartsWith_append,
      show (2 : Nat) = "B:".length from rfl, pyDrop_append]
  · intro n
    have hTB : pyStartsWith ("T:" ++ n) "B:" = false :=
      pyStartsWith_cons_ne _ _ 'T' 'B' (':' :: n.data) [':']
        (by rw [String.data_append]; rfl) rfl rfl
    simp [resolveRev, resolveSpec, hTB, pyStartsWith_append,
      show (2 : Nat) = "T:".length from rfl, pyDrop_append]
  · intro n
    have hCB : pyStartsWith ("C:" ++ n) "B:" = false :=
      pyStartsWith_cons_ne _ _ 'C' 'B' (':' :: n.data) [':']
        (by rw [String.data_append]; rfl) rfl rfl
    have hCT : pyStartsWith ("C:" ++ n) "T:" = false :=
      pyStartsWith_cons_ne _ _ 'C' 'T' (':' :: n.data) [':']
        (by rw [String.data_append]; rfl) rfl rfl
    simp [resolveRev, resolveSpec, hCB, hCT, pyStartsWith_append,
      show (2 : Nat) = "C:".length from rfl, pyDrop_append]
  · intro s h1 h2 h3
    simp [resolveRev, resolveSpec, h1, h2, h3]
  · intro w prefill ns push reg buildfile linecnt line a b c e st summary hsplit herr
    simp [process_line, parseLine, hsplit, herr]

theorem claim_C6_witness :
    resolveRev (some "X:foo") = .error "Incorrect line format, please refer to the docs" ∧
    process_line wTwice true none false none "img" 1 "t u X:f\n" St.init Summary.init =
      (St.init,
       Summary.add_exception Summary.init "img" (1, "t u X:f\n")
         "Incorrect line format, please refer to the docs",
       [Ev.outcome "img" 1 false]) :=
  ⟨claim_C6.2.2.2.2.1 "X:foo" rfl rfl rfl,
   claim_C6.2.2.2.2.2 wTwice true none false none "img" 1 "t u X:f\n" "t" "u" "X:f"
     "Incorrect line format, please refer to the docs" St.init Summary.init
     (by decide) rfl⟩

/-! ## C7: manifest-line field-count parsing -/

/-- C7: a line splitting into 1 field is URL-only, 2 fields are `tag url`,
3 fields are `tag url revisionSpec` (with the spec resolved), and a line
with more than 3 fields yields a Failure outcome for that line only (state
unchanged, no collaborator calls). -/
theorem claim_C7 :
    (∀ line a, pysplit line = [a] →
      parseLine line = .ok ⟨some a, none, "refs/heads/master"⟩)
  ∧ (∀ line a b, pysplit line = [a, b] →
      parseLine line = .ok ⟨some b, some a, "refs/heads/master"⟩)
  ∧ (∀ line a b c, pysplit line = [a, b, c] →
      parseLine line = (resolveSpec c).map fun r => ⟨some b, some a, r⟩)
  ∧ (∀ w prefill ns push reg buildfile linecnt line a b c d rest st summary,
      pysplit line = a :: b :: c :: d :: rest →
      process_line w prefill ns push reg buildfile linecnt line st summary =
        (st,
         Summary.add_exception summary buildfile (linecnt, line)
           "Incorrect line format, please refer to the docs",
         [Ev.outcome buildfile linecnt false])) := by
  refine ⟨?_, ?_, ?_, ?_⟩
  · intro line a h
    simp [parseLine, h]
  · intro line a b h
    simp [parseLine, h]
  · intro line a b c h
    cases hr : resolveSpec c <;> simp [parseLine, h, hr, Except.map]
  · intro w prefill ns push reg buildfile linecnt line a b c d rest st summary h
    simp [process_line, parseLine, h]

theorem claim_C7_witness :
    parseLine "u\n" = .ok ⟨some "u", none, "refs/heads/master"⟩ ∧
    parseLine "t u\n" = .ok ⟨some "u", some "t", "refs/heads/master"⟩ ∧
    parseLine "t u B:dev\n" = (resolveSpec "B:dev").map (fun r => ⟨some "u", some "t", r⟩) ∧
    process_line wTwice true none false none "img" 1 "a b c d\n" St.init Summary.init =
      (St.init,
       Summary.add_exception Summary.init "img" (1, "a b c d\n")
         "Incorrect line format, please refer to the docs",
       [Ev.outcome "img" 1 false]) :=
  ⟨claim_C7.1 "u\n" "u" (by decide),
   claim_C7.2.1 "t u\n" "t" "u" (by decide),
   claim_C7.2.2.1 "t u B:dev\n" "t" "u" "B:dev" (by decide),
   claim_C7.2.2.2 wTwice true none false none "img" 1 "a b c d\n" "a" "b" "c" "d" []
     St.init Summary.init (by decide)⟩

/-! ## Trace lemmas: one outcome recording per processed line -/

@[simp] theorem outcomeEvents_nil : outcomeEvents [] = [] := rfl

@[simp] theorem outcomeEvents_append (a b : List Ev) :
    outcomeEvents (a ++ b) = outcomeEvents a ++ outcomeEvents b :=
  List.filterMap_append a b _

@[simp] theorem outcomeEvents_cons_fetch (u : String) (t : List Ev) :
    outcomeEvents (Ev.fetch u :: t) = outcomeEvents t := by simp [outcomeEvents]

@[simp] theorem outcomeEvents_cons_checkout (r f : String) (t : List Ev) :
    outcomeEvents (Ev.checkout r f :: t) = outcomeEvents t := by simp [outcomeEvents]

@[simp] theorem outcomeEvents_cons_build (f : String) (t : List Ev) :
    outcomeEvents (Ev.build f :: t) = outcomeEvents t := by simp [outcomeEvents]

@[simp] theorem outcomeEvents_cons_tagop (i r : String) (dt : Option String) (t : List Ev) :
    outcomeEvents (Ev.tagop i r dt :: t) = outcomeEvents t := by simp [outcomeEvents]

@[simp] theorem outcomeEvents_cons_push (r : String) (t : List Ev) :
    outcomeEvents (Ev.push r :: t) = outcomeEvents t := by simp [outcomeEvents]

@[simp] theorem outcomeEvents_cons_pull (n : String) (t : List Ev) :
    outcomeEvents (Ev.pull n :: t) = outcomeEvents t := by simp [outcomeEvents]

@[simp] theorem outcomeEvents_cons_outcome (f : String) (n : Nat) (ok : Bool) (t : List Ev) :
    outcomeEvents (Ev.outcome f n ok :: t) = (f, n, ok) :: outcomeEvents t := by
  simp [outcomeEvents]

theorem outcomeEvents_tagAndPush (w : World) (img dr : String) (dt : Option String)
    (push : Bool) (reg : Option String) :
    outcomeEvents (tagAndPush w img dr dt push reg).2 = [] := by
  unfold tagAndPush
  repeat' first
    | split
    | simp

theorem outcomeEvents_clone (w : World) (u ref : Option String) :
    outcomeEvents (Git.clone w u ref).2 = [] := by
  unfold Git.clone
  repeat' first
    | split
    | simp

theorem outcomeEvents_checkout (w : World) (rep : String) (ref : Option String) :
    outcomeEvents (Git.checkout w rep ref).2 = [] := by
  unfold Git.checkout
  repeat' first
    | split
    | simp

theorem outcomeEvents_fetchOrReuse (w : World) (repo : Option String) (ref : String)
    (st : St) : outcomeEvents (fetchOrReuse w repo ref st).2.2 = [] := by
  unfold fetchOrReuse
  repeat' first
    | split
    | simp [outcomeEvents_clone, outcomeEvents_checkout]

theorem outcomeEvents_build_repo (w : World) (repo : Option String) (ref dr : String)
    (dt ns : Option String) (push : Bool) (reg : Option String) (st : St) :
    outcomeEvents (build_repo w repo ref dr dt ns push reg st).2.2 = [] := by
  unfold build_repo
  repeat' first
    | split
    | simp [outcomeEvents_tagAndPush, outcomeEvents_fetchOrReuse]

theorem outcomeEvents_process_line (w : World) (prefill : Bool) (ns : Option String)
    (push : Bool) (reg : Option String) (buildfile : String) (linecnt : Nat)
    (line : String) (st : St) (summary : Summary) :
    ∃ ok, outcomeEvents
        (process_line w prefill ns push reg buildfile linecnt line st summary).2.2 =
      [(buildfile, linecnt, ok)] := by
  unfold process_line
  cases hp : parseLine line with
  | error e => exact ⟨false, by simp [hp]⟩
  | ok p =>
    simp only [hp]
    cases prefill with
    | false =>
      cases hbr : (build_repo w p.url p.ref buildfile p.tag ns push reg st).1 with
      | ok img => exact ⟨true, by simp [hbr, outcomeEvents_build_repo]⟩
      | error e => exact ⟨false, by simp [hbr, outcomeEvents_build_repo]⟩
    | true =>
      cases hpo : w.pullOk buildfile with
      | false => exact ⟨false, by simp [hpo]⟩
      | true =>
        cases hbr : (build_repo w p.url p.ref buildfile p.tag ns push reg st).1 with
        | ok img => exact ⟨true, by simp [hpo, hbr, outcomeEvents_build_repo]⟩
        | error e => exact ⟨false, by simp [hpo, hbr, outcomeEvents_build_repo]⟩

theorem process_line_of_parse_error (w : World) (prefill : Bool) (ns : Option String)
    (push : Bool) (reg : Option String) (buildfile : String) (linecnt : Nat)
    (line : String) (st : St) (summary : Summary) (e : String)
    (hp : parseLine line = .error e) :
    process_line w prefill ns push reg buildfile linecnt line st summary =
      (st, summary.add_exception buildfile (linecnt, line) e,
       [Ev.outcome buildfile linecnt false]) := by
  simp [process_line, hp]

theorem parseLine_gt3 (line : String) (a b c d : String) (rest : List String)
    (h : pysplit line = a :: b :: c :: d :: rest) :
    parseLine line = .error "Incorrect line format, please refer to the docs" := by
  simp [parseLine, h]

theorem outcomeEvents_process_lines (w : World) (prefill : Bool) (ns : Option String)
    (push : Bool) (reg : Option String) (buildfile : String) :
    ∀ (lines : List String) (c : Nat) (st : St) (summary : Summary),
      ((outcomeEvents
          (process_lines w prefill ns push reg buildfile c lines st summary).2.2).map
        fun x => x.2.1) = List.range' (c + 1) lines.length := by
  intro lines
  induction lines with
  | nil => intro c st summary; simp [process_lines]
  | cons l ls ih =>
    intro c st summary
    obtain ⟨ok, hok⟩ :=
      outcomeEvents_process_line w prefill ns push reg buildfile (c + 1) l st summary
    simp [process_lines, hok, ih (c + 1), List.range']

theorem process_lines_malformed_mem (w : World) (prefill : Bool) (ns : Option String)
    (push : Bool) (reg : Option String) (buildfile : String) :
    ∀ (lines : List String) (c : Nat) (st : St) (summary : Summary)
      (i : Nat) (h : i < lines.length) (a b t d : String) (rest : List String),
      pysplit (lines.get ⟨i, h⟩) = a :: b :: t :: d :: rest →
      (buildfile, c + 1 + i, false) ∈
        outcomeEvents (process_lines w prefill ns push reg buildfile c lines st summary).2.2 := by
  intro lines
  induction lines with
  | nil =>
    intro c st summary i h
    exact absurd h (by simp)
  | cons l ls ih =>
    intro c st summary i h a b t d rest hsp
    cases i with
    | zero =>
      have he := parseLine_gt3 _ _ _ _ _ _ hsp
      have hpl := process_line_of_parse_error w prefill ns push reg buildfile (c + 1) l
        st summary _ he
      simp [process_lines, hpl]
    | succ j =>
      have hj : j < ls.length := by simpa using h
      have := ih (c + 1) (process_line w prefill ns push reg buildfile (c + 1) l st summary).1
        (process_line w prefill ns push reg buildfile (c + 1) l st summary).2.1
        j hj a b t d rest (by simpa using hsp)
      simp only [process_lines, outcomeEvents_append, List.mem_append]
      right
      have harith : c + 1 + 1 + j = c + 1 + (j + 1) := by omega
      rwa [harith] at this

/-- C5: every manifest line of a file receives exactly one report outcome,
in declaration order (outcome line numbers are exactly `c+1, ..., c+K`); a
malformed line (more than 3 fields) yields a Failure outcome at its own
index while all other lines still receive their own outcomes; and a run on
a reachable daemon with a readable local manifest always completes with a
rendered report — it is never aborted by an entry-level error. -/
theorem claim_C5 :
    (∀ w prefill ns push reg buildfile (lines : List String) (c : Nat) st summary,
      ((outcomeEvents
          (process_lines w prefill ns push reg buildfile c lines st summary).2.2).map
        fun x => x.2.1) = List.range' (c + 1) lines.length)
  ∧ (∀ w prefill ns push reg buildfile (lines : List String) c st summary
      (i : Nat) (h : i < lines.length) a b t d rest,
      pysplit (lines.get ⟨i, h⟩) = a :: b :: t :: d :: rest →
      (buildfile, c + 1 + i, false) ∈
        outcomeEvents (process_lines w prefill ns push reg buildfile c lines st summary).2.2)
  ∧ (∀ w repo branch ns push prefill reg st dirlist,
      w.daemonOk = true →
      pyStartsWith repo "https://" = false → pyStartsWith repo "git://" = false →
      w.listdir (repo ++ "/library") = some dirlist →
      ∃ s, (build_library w (some repo) branch ns push prefill reg st).1 = .done s) := by
  refine ⟨outcomeEvents_process_lines, process_lines_malformed_mem, ?_⟩
  intro w repo branch ns push prefill reg st dirlist hd h1 h2 hl
  simp [build_library, hd, h1, h2, hl]

theorem claim_C5_witness :
    ((outcomeEvents
        (process_lines wTwice true none false none "img" 0 ["u\n", "a b c d\n", "u\n"]
          St.init Summary.init).2.2).map
      fun x => x.2.1) = [1, 2, 3] ∧
    ("img", 2, false) ∈
      outcomeEvents
        (process_lines wTwice true none false none "img" 0 ["u\n", "a b c d\n", "u\n"]
          St.init Summary.init).2.2 ∧
    ∃ s, (build_library wTwice (some "/m") none none false false none St.init).1 = .done s :=
  ⟨by have := claim_C5.1 wTwice true none false none "img" ["u\n", "a b c d\n", "u\n"]
        0 St.init Summary.init
      simpa using this,
   claim_C5.2.1 wTwice true none false none "img" ["u\n", "a b c d\n", "u\n"] 0
     St.init Summary.init 1 (by decide) "a" "b" "c" "d" [] (by decide),
   claim_C5.2.2 wTwice "/m" none none false false none St.init ["img"]
     rfl (by decide) (by decide) rfl⟩

/-! ## C1, C2, C8: report keying, prefill failure, blank lines -/

/-- C1 counterexample: a run over a file with the same raw line twice
processes two entries (two outcome recordings) but the report ends with a
single outcome for that file, keyed by the raw line text and holding the
second line's data — the first entry's outcome was replaced. -/
theorem claim_C1_counterexample :
    (build_library wTwice (some "/m") none none false false none St.init).1 =
      .done ⟨[("img", [("u\n", .success 2 "I")])], false⟩ ∧
    (outcomeEvents
      (build_library wTwice (some "/m") none none false false none St.init).2.2).length = 2 := by
  exact ⟨by decide, by decide⟩

/-- C1 amended: the report keys outcomes by `(sourceFile, rawLineText)`;
`_add_data` inserts or replaces the outcome at exactly that key and leaves
every other key untouched, so lines with identical raw text share one
outcome (the last recorded) instead of keeping distinct ones. -/
theorem claim_C1_amended (s : Summary) (image linestr : String) (d : Outcome) :
    Summary.find (s.add_data image linestr d) image linestr = some d ∧
    ∀ im ls, im ≠ image ∨ ls ≠ linestr →
      Summary.find (s.add_data image linestr d) im ls = Summary.find s im ls := by
  constructor
  · cases h : aget s.summary image with
    | none => simp [Summary.find, Summary.add_data, h, aget_aset_self, aget]
    | some lines => simp [Summary.find, Summary.add_data, h, aget_aset_self, aget_aset_self]
  · intro im ls hne
    by_cases him : im = image
    · subst him
      rcases hne with hne | hne
      · exact absurd rfl hne
      · cases h : aget s.summary im with
        | none =>
          simp [Summary.find, Summary.add_data, h, aget_aset_self, aget, Ne.symm hne]
        | some lines =>
          simp [Summary.find, Summary.add_data, h, aget_aset_self,
            aget_aset_ne lines linestr ls d (Ne.symm hne)]
    · cases h : aget s.summary image with
      | none =>
        simp [Summary.find, Summary.add_data, h,
          aget_aset_ne s.summary image im _ (fun hh => him hh.symm)]
      | some lines =>
        simp [Summary.find, Summary.add_data, h,
          aget_aset_ne s.summary image im _ (fun hh => him hh.symm)]

theorem claim_C1_witness :
    Summary.find (Summary.add_data Summary.init "img" "u\n" (.success 1 "I")) "img" "u\n" =
      some (.success 1 "I") ∧
    Summary.find (Summary.add_data Summary.init "img" "u\n" (.success 1 "I")) "img" "v\n" =
      Summary.find Summary.init "img" "v\n" :=
  ⟨(claim_C1_amended Summary.init "img" "u\n" (.success 1 "I")).1,
   (claim_C1_amended Summary.init "img" "u\n" (.success 1 "I")).2 "img" "v\n"
     (Or.inr (by decide))⟩

/-- C2 counterexample: with prefill enabled and the prefill pull failing,
the run records a Failure outcome for the entry and never reaches the
build (no build event) — the pull failure is not ignored. -/
theorem claim_C2_counterexample :
    (build_library wPullFail (some "/m") none none false true none St.init).1 =
      .done ⟨[("img", [("u\n", .failure 1 "pull failed")])], true⟩ ∧
    buildCount
      (build_library wPullFail (some "/m") none none false true none St.init).2.2 = 0 := by
  exact ⟨by decide, by decide⟩

/-- C2 amended: the prefill pull runs inside the per-entry try block, so
its failure is an entry-level error: the entry's pipeline stops (state
unchanged, no further collaborator calls) and a Failure outcome is
recorded for the entry; the run itself continues. -/
theorem claim_C2_amended (w : World) (ns : Option String) (push : Bool)
    (reg : Option String) (buildfile : String) (linecnt : Nat) (line : String)
    (st : St) (summary : Summary) (p : Parsed)
    (hp : parseLine line = .ok p) (hpull : w.pullOk buildfile = false) :
    process_line w true ns push reg buildfile linecnt line st summary =
      (st, summary.add_exception buildfile (linecnt, line) "pull failed",
       [Ev.pull buildfile, Ev.outcome buildfile linecnt false]) := by
  simp [process_line, hp, hpull]

theorem claim_C2_witness :
    process_line wPullFail true none false none "img" 1 "u\n" St.init Summary.init =
      (St.init, Summary.init.add_exception "img" (1, "u\n") "pull failed",
       [Ev.pull "img", Ev.outcome "img" 1 false]) :=
  claim_C2_amended wPullFail none false none "img" 1 "u\n" St.init Summary.init
    ⟨some "u", none, "refs/heads/master"⟩ rfl rfl

/-- C8 counterexample: a manifest file consisting of one blank line yields
one processed entry and one recorded Failure outcome — blank lines are not
skipped. -/
theorem claim_C8_counterexample :
    (build_library wBlank (some "/m") none none false false none St.init).1 =
      .done ⟨[("img",
        [("\n", .failure 1 "get_transport_and_path: url is not a string")])], true⟩ ∧
    (outcomeEvents
      (build_library wBlank (some "/m") none none false false none St.init).2.2).length = 1 := by
  exact ⟨by decide, by decide⟩

/-- C8 amended: a blank line is processed as an entry with `url = None`;
its build attempt fails before any fetch (only the prefill pull, when
enabled, touches a collaborator) and a Failure outcome is recorded for the
line, with the module state unchanged. -/
theorem claim_C8_amended (w : World) (prefill : Bool) (ns : Option String) (push : Bool)
    (reg : Option String) (buildfile : String) (linecnt : Nat) (line : String)
    (st : St) (summary : Summary)
    (hsplit : pysplit line = [])
    (hkey : aget st.processed (buildKey none "refs/heads/master") = none) :
    ∃ msg, process_line w prefill ns push reg buildfile linecnt line st summary =
      (st, summary.add_exception buildfile (linecnt, line) msg,
       (if prefill then [Ev.pull buildfile] else []) ++
         [Ev.outcome buildfile linecnt false]) := by
  have hp : parseLine line = .ok ⟨none, none, "refs/heads/master"⟩ := by
    simp [parseLine, hsplit]
  cases prefill with
  | false =>
    refine ⟨"get_transport_and_path: url is not a string", ?_⟩
    simp [process_line, hp, build_repo, hkey, fetchOrReuse, Git.clone]
  | true =>
    cases hpo : w.pullOk buildfile with
    | false =>
      refine ⟨"pull failed", ?_⟩
      simp [process_line, hp, hpo]
    | true =>
      refine ⟨"get_transport_and_path: url is not a string", ?_⟩
      simp [process_line, hp, hpo, build_repo, hkey, fetchOrReuse, Git.clone]

theorem claim_C8_witness :
    ∃ msg, process_line wBlank true none false none "img" 1 "\n" St.init Summary.init =
      (St.init, Summary.init.add_exception "img" (1, "\n") msg,
       (if true then [Ev.pull "img"] else []) ++ [Ev.outcome "img" 1 false]) :=
  claim_C8_amended wBlank true none false none "img" 1 "\n" St.init Summary.init
    (by decide) rfl

/-! ## C4, C10: the artifact cache -/

theorem tagAndPush_ok (w : World) (img dr : String) (dt : Option String) (push : Bool)
    (reg : Option String) (htag : ∀ im d t, w.tagOk im d t = true)
    (hpush : ∀ d, w.pushOk d = true) :
    (tagAndPush w img dr dt push reg).1 = .ok img ∧
    (tagAndPush w img dr dt push reg).2.filter isRepoWork = [] := by
  cases push <;> cases reg <;> simp [tagAndPush, htag, hpush, isRepoWork]

/-- C4: once an artifact id is recorded for a BuildKey, a later entry with
the same BuildKey (when its prefill pull and tag/push succeed) performs no
fetch, no checkout and no build, reports the recorded artifact id as its
success outcome, and leaves the artifact recorded under the key. -/
theorem claim_C4 (w : World) (prefill : Bool) (ns : Option String) (push : Bool)
    (reg : Option String) (buildfile : String) (linecnt : Nat) (line : String)
    (st : St) (summary : Summary) (p : Parsed) (i : String)
    (hp : parseLine line = .ok p)
    (hkey : aget st.processed (buildKey p.url p.ref) = some (.img i))
    (hpull : prefill = true → w.pullOk buildfile = true)
    (htag : ∀ im d t, w.tagOk im d t = true)
    (hpush : ∀ d, w.pushOk d = true) :
    (process_line w prefill ns push reg buildfile linecnt line st summary).2.1 =
      summary.add_success buildfile (linecnt, line) i ∧
    (process_line w prefill ns push reg buildfile linecnt line st summary).2.2.filter
      isRepoWork = [] ∧
    aget (process_line w prefill ns push reg buildfile linecnt line st summary).1.processed
      (buildKey p.url p.ref) = some (.img i) := by
  obtain ⟨h1, h2⟩ := tagAndPush_ok w i (dockerRepoName ns buildfile) p.tag push reg htag hpush
  have hstr : CacheVal.str (.img i) = i := rfl
  cases prefill with
  | false =>
    refine ⟨?_, ?_, ?_⟩ <;>
      simp [process_line, hp, build_repo, hkey, hstr, h1, h2, List.filter_append,
        isRepoWork, aget_aset_self]
  | true =>
    have hpo := hpull rfl
    refine ⟨?_, ?_, ?_⟩ <;>
      simp [process_line, hp, hpo, build_repo, hkey, hstr, h1, h2, List.filter_append,
        isRepoWork, aget_aset_self]

theorem claim_C4_witness :
    (process_line wTwice true none false none "img" 2 "u\n"
      ⟨[("u@refs/heads/master", .img "I")], []⟩ Summary.init).2.1 =
      Summary.init.add_success "img" (2, "u\n") "I" ∧
    (process_line wTwice true none false none "img" 2 "u\n"
      ⟨[("u@refs/heads/master", .img "I")], []⟩ Summary.init).2.2.filter isRepoWork = [] ∧
    aget (process_line wTwice true none false none "img" 2 "u\n"
      ⟨[("u@refs/heads/master", .img "I")], []⟩ Summary.init).1.processed
      (buildKey (some "u") "refs/heads/master") = some (.img "I") :=
  claim_C4 wTwice true none false none "img" 2 "u\n"
    ⟨[("u@refs/heads/master", .img "I")], []⟩ Summary.init
    ⟨some "u", none, "refs/heads/master"⟩ "I" rfl rfl
    (fun _ => rfl) (fun _ _ _ => rfl) (fun _ => rfl)

/-- C10 counterexample: with tagging failing, a run over two entries with
the same BuildKey invokes the build twice and ends with no artifact
recorded under the key (though the fetch is still performed only once) —
so the artifact id is NOT recorded before the tag step. -/
theorem claim_C10_counterexample :
    buildCount (build_library wTagFail (some "/m") none none false false none St.init).2.2
      = 2 ∧
    aget (build_library wTagFail (some "/m") none none false false none
      St.init).2.1.processed (buildKey (some "u") "refs/heads/master") = none ∧
    fetchCount (build_library wTagFail (some "/m") none none false false none St.init).2.2
      "u" = 1 := by
  exact ⟨by decide, by decide, by decide⟩

/-- C10 amended: the artifact id is recorded under its BuildKey only by the
session after the whole per-entry pipeline (build, tag, push) returns
successfully; when the build succeeds but tagging fails, the module state
is left exactly as before the entry (no artifact recorded, handle
unchanged), the entry gets a Failure outcome, and the build was invoked —
so a later entry with the same BuildKey will rebuild (reusing the handle,
hence without refetching). -/
theorem claim_C10_amended (w : World) (prefill : Bool) (ns : Option String) (push : Bool)
    (reg : Option String) (buildfile : String) (linecnt : Nat) (line : String)
    (st : St) (summary : Summary) (p : Parsed) (u hdl i : String)
    (hp : parseLine line = .ok p) (hu : p.url = some u)
    (hkey : aget st.processed (buildKey p.url p.ref) = none)
    (hh : aget st.processed u = some (.handle hdl))
    (href : w.refOk hdl p.ref = true)
    (hdock : w.hasDockerfile ("tmp:" ++ hdl) p.ref = true)
    (hbuild : w.buildRes ("tmp:" ++ hdl) p.ref = some i)
    (htag : w.tagOk i (dockerRepoName ns buildfile) p.tag = false)
    (hpull : prefill = true → w.pullOk buildfile = true) :
    (process_line w prefill ns push reg buildfile linecnt line st summary).1 = st ∧
    (process_line w prefill ns push reg buildfile linecnt line st summary).2.1 =
      summary.add_exception buildfile (linecnt, line) "tag failed" ∧
    buildCount
      (process_line w prefill ns push reg buildfile linecnt line st summary).2.2 = 1 := by
  have hstr : CacheVal.str (.handle hdl) = hdl := rfl
  rw [hu] at hkey
  cases prefill with
  | false =>
    refine ⟨?_, ?_, ?_⟩ <;>
      simp [process_line, hp, build_repo, hkey, fetchOrReuse, hu, hh, hstr, Git.checkout,
        href, hdock, hbuild, tagAndPush, htag, buildCount]
  | true =>
    have hpo := hpull rfl
    refine ⟨?_, ?_, ?_⟩ <;>
      simp [process_line, hp, hpo, build_repo, hkey, fetchOrReuse, hu, hh, hstr,
        Git.checkout, href, hdock, hbuild, tagAndPush, htag, buildCount]

theorem claim_C10_witness :
    (process_line wTagFail false none false none "img" 2 "s u\n"
      ⟨[("u", .handle "u")], ["tmp:u"]⟩ Summary.init).1 = ⟨[("u", .handle "u")], ["tmp:u"]⟩ ∧
    (process_line wTagFail false none false none "img" 2 "s u\n"
      ⟨[("u", .handle "u")], ["tmp:u"]⟩ Summary.init).2.1 =
      Summary.init.add_exception "img" (2, "s u\n") "tag failed" ∧
    buildCount (process_line wTagFail false none false none "img" 2 "s u\n"
      ⟨[("u", .handle "u")], ["tmp:u"]⟩ Summary.init).2.2 = 1 :=
  claim_C10_amended wTagFail false none false none "img" 2 "s u\n"
    ⟨[("u", .handle "u")], ["tmp:u"]⟩ Summary.init
    ⟨some "u", some "s", "refs/heads/master"⟩ "u" "u" "I" rfl rfl rfl rfl rfl rfl rfl rfl
    (fun h => by cases h)

/-! ## C9: cache lifetime across runs -/

theorem fetchOrReuse_mono (w : World) (repo : Option String) (ref : String) (st : St)
    (k : String) (h : (aget st.processed k).isSome) :
    (aget (fetchOrReuse w repo ref st).2.1.processed k).isSome := by
  unfold fetchOrReuse
  split
  next heq =>
    cases hc : (Git.clone w repo (some ref)).1 with
    | ok rf =>
      simp only [hc]
      exact aget_aset_isSome _ _ _ _ h
    | error e =>
      simp only [hc]
      exact h
  next v heq =>
    cases hc : (Git.checkout w (CacheVal.str v) (some ref)).1 with
    | ok folder =>
      simp only [hc]
      exact h
    | error e =>
      simp only [hc]
      exact h

theorem build_repo_mono (w : World) (repo : Option String) (ref dr : String)
    (dt ns : Option String) (push : Bool) (reg : Option String) (st : St)
    (k : String) (h : (aget st.processed k).isSome) :
    (aget (build_repo w repo ref dr dt ns push reg st).2.1.processed k).isSome := by
  unfold build_repo
  split
  next v heq => exact h
  next heq =>
    have hm := fetchOrReuse_mono w repo ref st k h
    cases hf : (fetchOrReuse w repo ref st).1 with
    | error e =>
      simp only [hf]
      exact hm
    | ok folder =>
      simp only [hf]
      repeat' split
      all_goals exact hm

theorem process_line_mono (w : World) (prefill : Bool) (ns : Option String) (push : Bool)
    (reg : Option String) (buildfile : String) (linecnt : Nat) (line : String)
    (st : St) (summary : Summary) (k : String) (h : (aget st.processed k).isSome) :
    (aget (process_line w prefill ns push reg buildfile linecnt line st
      summary).1.processed k).isSome := by
  unfold process_line
  cases hp : parseLine line with
  | error e => simpa [hp] using h
  | ok p =>
    simp only [hp]
    cases prefill with
    | false =>
      cases hbr : (build_repo w p.url p.ref buildfile p.tag ns push reg st).1 with
      | ok img =>
        simp only [hbr]
        simpa using aget_aset_isSome _ _ _ _
          (build_repo_mono w p.url p.ref buildfile p.tag ns push reg st k h)
      | error e =>
        simp only [hbr]
        simpa using build_repo_mono w p.url p.ref buildfile p.tag ns push reg st k h
    | true =>
      cases hpo : w.pullOk buildfile with
      | false => simpa [hpo] using h
      | true =>
        cases hbr : (build_repo w p.url p.ref buildfile p.tag ns push reg st).1 with
        | ok img =>
          simp only [hbr, hpo]
          simpa using aget_aset_isSome _ _ _ _
            (build_repo_mono w p.url p.ref buildfile p.tag ns push reg st k h)
        | error e =>
          simp only [hbr, hpo]
          simpa using build_repo_mono w p.url p.ref buildfile p.tag ns push reg st k h

theorem process_lines_mono (w : World) (prefill : Bool) (ns : Option String) (push : Bool)
    (reg : Option String) (buildfile : String) :
    ∀ (lines : List String) (c : Nat) (st : St) (summary : Summary) (k : String),
      (aget st.processed k).isSome →
      (aget (process_lines w prefill ns push reg buildfile c lines st
        summary).1.processed k).isSome := by
  intro lines
  induction lines with
  | nil => intro c st summary k h; simpa [process_lines] using h
  | cons l ls ih =>
    intro c st summary k h
    simp only [process_lines]
    exact ih (c + 1) _ _ k
      (process_line_mono w prefill ns push reg buildfile (c + 1) l st summary k h)

theorem process_files_mono (w : World) (prefill : Bool) (ns : Option String) (push : Bool)
    (reg : Option String) (dst : String) :
    ∀ (files : List String) (st : St) (summary : Summary) (k : String),
      (aget st.processed k).isSome →
      (aget (process_files w prefill ns push reg dst files st summary).1.processed
        k).isSome := by
  intro files
  induction files with
  | nil => intro st summary k h; simpa [process_files] using h
  | cons f fs ih =>
    intro st summary k h
    by_cases hf : f = "MAINTAINERS"
    · simpa [process_files, hf] using ih st summary k h
    · simp only [process_files, if_neg hf]
      exact ih _ _ k (process_lines_mono w prefill ns push reg f _ 0 st summary k h)

/-- C9 amended: the cache (`processed` / `processed_folders`) is
module-level state that `build_library` never resets: every key present in
the cache when a run starts is still present when it ends, so cache state
from one completed run is visible to the next run in the same process
(only the module import initialises an empty cache). -/
theorem claim_C9_amended (w : World) (repo branch ns : Option String) (push prefill : Bool)
    (reg : Option String) (st : St) (k : String)
    (h : (aget st.processed k).isSome) :
    (aget (build_library w repo branch ns push prefill reg st).2.1.processed k).isSome := by
  simp only [build_library]
  repeat' split
  all_goals first
    | exact h
    | exact process_files_mono w prefill ns push reg _ _ st Summary.init k h

/-- C9 counterexample: running `build_library` a second time in the same
process (i.e. on the module state the first run left behind) reports a
success for the same entry while performing zero fetches and zero builds —
the artifact cached by the first run is reused, and the first run's final
state is not the empty cache. -/
theorem claim_C9_counterexample :
    (build_library wOnce (some "/m") none none false false none
        (build_library wOnce (some "/m") none none false false none St.init).2.1).1 =
      .done ⟨[("img", [("u\n", .success 1 "I")])], false⟩ ∧
    fetchCount (build_library wOnce (some "/m") none none false false none
        (build_library wOnce (some "/m") none none false false none
          St.init).2.1).2.2 "u" = 0 ∧
    buildCount (build_library wOnce (some "/m") none none false false none
        (build_library wOnce (some "/m") none none false false none
          St.init).2.1).2.2 = 0 ∧
    (build_library wOnce (some "/m") none none false false none St.init).2.1 ≠ St.init := by
  exact ⟨by decide, by decide, by decide, by decide⟩

theorem claim_C9_witness :
    (aget (build_library wOnce (some "/m") none none false false none
      ⟨[("u@refs/heads/master", .img "I")], []⟩).2.1.processed
      "u@refs/heads/master").isSome :=
  claim_C9_amended wOnce (some "/m") none none false false none
    ⟨[("u@refs/heads/master", .img "I")], []⟩ "u@refs/heads/master" (by decide)

/-! ## C3: fetch deduplication -/

theorem url_ne_key (u r : String) : u ≠ u ++ "@" ++ r := by
  intro h
  have hd : u.data = u.data ++ ('@' :: r.data) := by
    conv_lhs => rw [h]
    rw [String.data_append, String.data_append]
    simp
  have hlen := congrArg List.length hd
  simp at hlen

theorem key_inj (u r₁ r₂ : String) (h : u ++ "@" ++ r₁ = u ++ "@" ++ r₂) : r₁ = r₂ := by
  have hd := congrArg String.data h
  rw [String.data_append, String.data_append, String.data_append, String.data_append] at hd
  have h₂ := List.append_cancel_left hd
  exact String.ext h₂

theorem aget_procTail (w : World) (u : String) :
    ∀ (rs : List String) (r : String),
      aget (rs.map fun x => (u ++ "@" ++ x, CacheVal.img (imgOf w u x))) (u ++ "@" ++ r) =
        if r ∈ rs then some (.img (imgOf w u r)) else none := by
  intro rs
  induction rs with
  | nil => intro r; simp
  | cons x t ih =>
    intro r
    by_cases hx : x = r
    · subst hx
      simp [aget]
    · have hk : u ++ "@" ++ x ≠ u ++ "@" ++ r := fun hh => hx (key_inj u x r hh)
      simp [aget, hk, ih r, Ne.symm hx]

theorem aget_procState_key (w : World) (u : String) (rs : List String) (r : String) :
    aget (procState w u rs) (u ++ "@" ++ r) =
      if r ∈ rs then some (.img (imgOf w u r)) else none := by
  have hne : u ≠ u ++ "@" ++ r := url_ne_key u r
  simp [procState, aget, hne, aget_procTail]

theorem aget_procState_url (w : World) (u : String) (rs : List String) :
    aget (procState w u rs) u = some (.handle u) := by
  simp [procState, aget]

theorem procState_snoc (w : World) (u : String) (rs : List String) (r : String)
    (hr : r ∉ rs) :
    aset (procState w u rs) (u ++ "@" ++ r) (.img (imgOf w u r)) =
      procState w u (rs ++ [r]) := by
  rw [aset_append_of_aget_none _ _ _ (by simp [aget_procState_key, hr])]
  simp [procState]

theorem fetchCount_append (a b : List Ev) (v : String) :
    fetchCount (a ++ b) v = fetchCount a v + fetchCount b v := by
  simp [fetchCount, List.filter_append]

theorem checkoutCount_append (a b : List Ev) (v : String) :
    checkoutCount (a ++ b) v = checkoutCount a v + checkoutCount b v := by
  simp [checkoutCount, List.filter_append]

theorem counts_zero_of_noRepoWork (evs : List Ev) (h : evs.filter isRepoWork = []) :
    (∀ v, fetchCount evs v = 0) ∧ (∀ v, checkoutCount evs v = 0) ∧ buildCount evs = 0 := by
  rw [List.filter_eq_nil] at h
  refine ⟨fun v => ?_, fun v => ?_, ?_⟩ <;>
    · simp only [fetchCount, checkoutCount, buildCount, List.length_eq_zero,
        List.filter_eq_nil]
      intro a ha
      have := h a ha
      cases a <;> simp_all [isRepoWork]

theorem lineKey_inv (l u r : String) (h : lineKey l = some (u, r)) :
    ∃ t, parseLine l = .ok ⟨some u, t, r⟩ := by
  unfold lineKey at h
  cases hp : parseLine l with
  | error e =>
    rw [hp] at h
    simp at h
  | ok p =>
    rw [hp] at h
    obtain ⟨pu, pt, pr⟩ := p
    cases pu with
    | none => simp at h
    | some u' =>
      simp at h
      exact ⟨pt, by rw [h.1, h.2]⟩

theorem buildRes_eq (w : World) (u r : String) (h : w.buildRes ("tmp:" ++ u) r ≠ none) :
    w.buildRes ("tmp:" ++ u) r = some (imgOf w u r) := by
  cases hb : w.buildRes ("tmp:" ++ u) r with
  | none => exact absurd hb h
  | some i => simp [imgOf, hb]

theorem process_line_hit (w : World) (hw : AllOk w) (prefill : Bool) (ns : Option String)
    (push : Bool) (reg : Option String) (buildfile : String) (linecnt : Nat)
    (l u r : String) (rs : List String) (st : St) (summary : Summary)
    (hl : lineKey l = some (u, r)) (hst : st.processed = procState w u rs)
    (hr : r ∈ rs) :
    (process_line w prefill ns push reg buildfile linecnt l st summary).1 = st ∧
    (∀ v, fetchCount
      (process_line w prefill ns push reg buildfile linecnt l st summary).2.2 v = 0) ∧
    (∀ v, checkoutCount
      (process_line w prefill ns push reg buildfile linecnt l st summary).2.2 v = 0) := by
  obtain ⟨hf, hre, hdk, hbl, hpl, htg, hps⟩ := hw
  obtain ⟨t, hp⟩ := lineKey_inv l u r hl
  have hkey : aget st.processed (buildKey (some u) r) = some (.img (imgOf w u r)) := by
    rw [hst, show buildKey (some u) r = u ++ "@" ++ r from rfl, aget_procState_key]
    simp [hr]
  obtain ⟨htp1, htp2⟩ :=
    tagAndPush_ok w (imgOf w u r) (dockerRepoName ns buildfile) t push reg htg hps
  obtain ⟨hcz1, hcz2, _⟩ := counts_zero_of_noRepoWork _ htp2
  have hrec := aset_eq_of_aget st.processed (buildKey (some u) r)
    (.img (imgOf w u r)) hkey
  have hmem : ∀ a ∈ (tagAndPush w (imgOf w u r) (dockerRepoName ns buildfile)
      t push reg).2, isRepoWork a = false := by
    intro a ha
    simpa using List.filter_eq_nil.mp htp2 a ha
  cases prefill with
  | false =>
    refine ⟨?_, ?_, ?_⟩
    · simp [process_line, hp, build_repo, hkey, CacheVal.str, htp1, hrec]
    · intro v
      simp only [process_line, hp, build_repo, hkey, CacheVal.str, htp1,
        fetchCount_append, fetchCount, List.filter_append]
      simp [fetchCount]
      intro a ha
      have hh := hmem a ha
      cases a <;> simp_all [isRepoWork]
    · intro v
      simp only [process_line, hp, build_repo, hkey, CacheVal.str, htp1,
        checkoutCount_append, checkoutCount, List.filter_append]
      simp [checkoutCount]
      intro a ha
      have hh := hmem a ha
      cases a <;> simp_all [isRepoWork]
  | true =>
    refine ⟨?_, ?_, ?_⟩
    · simp [process_line, hp, hpl buildfile, build_repo, hkey, CacheVal.str, htp1, hrec]
    · intro v
      simp only [process_line, hp, hpl buildfile, build_repo, hkey, CacheVal.str, htp1,
        fetchCount_append, fetchCount, List.filter_append]
      simp [fetchCount]
      intro a ha
      have hh := hmem a ha
      cases a <;> simp_all [isRepoWork]
    · intro v
      simp only [process_line, hp, hpl buildfile, build_repo, hkey, CacheVal.str, htp1,
        checkoutCount_append, checkoutCount, List.filter_append]
      simp [checkoutCount]
      intro a ha
      have hh := hmem a ha
      cases a <;> simp_all [isRepoWork]

@[simp] theorem fetchCount_nil (v : String) : fetchCount [] v = 0 := rfl

@[simp] theorem checkoutCount_nil (v : String) : checkoutCount [] v = 0 := rfl

theorem fetchCount_cons (e : Ev) (t : List Ev) (v : String) :
    fetchCount (e :: t) v =
      (match e with | .fetch x => if x = v then 1 else 0 | _ => 0) + fetchCount t v := by
  cases e with
  | fetch x => by_cases hx : x = v <;> simp [fetchCount, hx, Nat.add_comm]
  | checkout a b => simp [fetchCount]
  | build a => simp [fetchCount]
  | tagop a b c => simp [fetchCount]
  | push a => simp [fetchCount]
  | pull a => simp [fetchCount]
  | outcome a b c => simp [fetchCount]

theorem checkoutCount_cons (e : Ev) (t : List Ev) (v : String) :
    checkoutCount (e :: t) v =
      (match e with | .checkout x _ => if x = v then 1 else 0 | _ => 0) +
        checkoutCount t v := by
  cases e with
  | fetch x => simp [checkoutCount]
  | checkout a b => by_cases hx : a = v <;> simp [checkoutCount, hx, Nat.add_comm]
  | build a => simp [checkoutCount]
  | tagop a b c => simp [checkoutCount]
  | push a => simp [checkoutCount]
  | pull a => simp [checkoutCount]
  | outcome a b c => simp [checkoutCount]

theorem process_line_miss (w : World) (hw : AllOk w) (prefill : Bool) (ns : Option String)
    (push : Bool) (reg : Option String) (buildfile : String) (linecnt : Nat)
    (l u r : String) (rs : List String) (st : St) (summary : Summary)
    (hl : lineKey l = some (u, r)) (hst : st.processed = procState w u rs)
    (hr : r ∉ rs) :
    (process_line w prefill ns push reg buildfile linecnt l st summary).1.processed =
      procState w u (rs ++ [r]) ∧
    (process_line w prefill ns push reg buildfile linecnt l st
      summary).1.processed_folders = st.processed_folders ∧
    (∀ v, fetchCount
      (process_line w prefill ns push reg buildfile linecnt l st summary).2.2 v = 0) ∧
    checkoutCount
      (process_line w prefill ns push reg buildfile linecnt l st summary).2.2 u = 1 := by
  obtain ⟨hf, hre, hdk, hbl, hpl, htg, hps⟩ := hw
  obtain ⟨t, hp⟩ := lineKey_inv l u r hl
  have hkeyN : aget st.processed (buildKey (some u) r) = none := by
    rw [hst, show buildKey (some u) r = u ++ "@" ++ r from rfl, aget_procState_key]
    simp [hr]
  have hurl : aget st.processed u = some (.handle u) := by
    rw [hst]
    exact aget_procState_url w u rs
  have hbres : w.buildRes ("tmp:" ++ u) r = some (imgOf w u r) := buildRes_eq w u r (hbl _ _)
  obtain ⟨htp1, htp2⟩ :=
    tagAndPush_ok w (imgOf w u r) (dockerRepoName ns buildfile) t push reg htg hps
  obtain ⟨hcz1, hcz2, _⟩ := counts_zero_of_noRepoWork _ htp2
  have hrec : aset st.processed (buildKey (some u) r) (.img (imgOf w u r)) =
      procState w u (rs ++ [r]) := by
    rw [hst, show buildKey (some u) r = u ++ "@" ++ r from rfl]
    exact procState_snoc w u rs r hr
  cases prefill with
  | false =>
    refine ⟨?_, ?_, ?_, ?_⟩
    · simp [process_line, hp, build_repo, hkeyN, fetchOrReuse, hurl, CacheVal.str,
        Git.checkout, hre, hdk, hbres, htp1, hrec]
    · simp [process_line, hp, build_repo, hkeyN, fetchOrReuse, hurl, CacheVal.str,
        Git.checkout, hre, hdk, hbres, htp1, hrec]
    · intro v
      simp only [process_line, hp, build_repo, hkeyN, fetchOrReuse, hurl, CacheVal.str,
        Git.checkout, hre, hdk, hbres, htp1]
      simp [hre, hdk, hbres, htp1, fetchCount_append, fetchCount_cons, hcz1]
    · simp only [process_line, hp, build_repo, hkeyN, fetchOrReuse, hurl, CacheVal.str,
        Git.checkout, hre, hdk, hbres, htp1]
      simp [hre, hdk, hbres, htp1, checkoutCount_append, checkoutCount_cons, hcz2]
  | true =>
    refine ⟨?_, ?_, ?_, ?_⟩
    · simp [process_line, hp, hpl buildfile, build_repo, hkeyN, fetchOrReuse, hurl,
        CacheVal.str, Git.checkout, hre, hdk, hbres, htp1, hrec]
    · simp [process_line, hp, hpl buildfile, build_repo, hkeyN, fetchOrReuse, hurl,
        CacheVal.str, Git.checkout, hre, hdk, hbres, htp1, hrec]
    · intro v
      simp only [process_line, hp, hpl buildfile, build_repo, hkeyN, fetchOrReuse, hurl,
        CacheVal.str, Git.checkout, hre, hdk, hbres, htp1]
      simp [hpl buildfile, hre, hdk, hbres, htp1, fetchCount_append, fetchCount_cons, hcz1]
    · simp only [process_line, hp, hpl buildfile, build_repo, hkeyN, fetchOrReuse, hurl,
        CacheVal.str, Git.checkout, hre, hdk, hbres, htp1]
      simp [hpl buildfile, hre, hdk, hbres, htp1, checkoutCount_append, checkoutCount_cons,
        hcz2]

theorem process_line_first (w : World) (hw : AllOk w) (prefill : Bool) (ns : Option String)
    (push : Bool) (reg : Option String) (buildfile : String) (linecnt : Nat)
    (l u r : String) (st : St) (summary : Summary)
    (hl : lineKey l = some (u, r)) (hst : st.processed = []) :
    (process_line w prefill ns push reg buildfile linecnt l st summary).1.processed =
      procState w u [r] ∧
    (∀ v, fetchCount
      (process_line w prefill ns push reg buildfile linecnt l st summary).2.2 v =
        if v = u then 1 else 0) ∧
    checkoutCount
      (process_line w prefill ns push reg buildfile linecnt l st summary).2.2 u = 1 := by
  obtain ⟨hf, hre, hdk, hbl, hpl, htg, hps⟩ := hw
  obtain ⟨t, hp⟩ := lineKey_inv l u r hl
  have hbres : w.buildRes ("tmp:" ++ u) r = some (imgOf w u r) := buildRes_eq w u r (hbl _ _)
  obtain ⟨htp1, htp2⟩ :=
    tagAndPush_ok w (imgOf w u r) (dockerRepoName ns buildfile) t push reg htg hps
  obtain ⟨hcz1, hcz2, _⟩ := counts_zero_of_noRepoWork _ htp2
  have hne := url_ne_key u r
  have hrec : aset (aset ([] : List (String × CacheVal)) u (.handle u))
      (buildKey (some u) r) (.img (imgOf w u r)) = procState w u [r] := by
    simp [aset, procState, buildKey, pyStrOpt, hne]
  cases prefill with
  | false =>
    refine ⟨?_, ?_, ?_⟩
    · simp [process_line, hp, build_repo, hst, fetchOrReuse, Git.clone, hf, hre, hdk,
        hbres, htp1, pyStrOpt, hrec]
    · intro v
      by_cases hv : v = u
      · subst hv
        simp only [process_line, hp, build_repo, hst, fetchOrReuse, Git.clone]
        simp [hf, hre, hdk, hbres, htp1, fetchCount_append, fetchCount_cons, hcz1]
      · simp only [process_line, hp, build_repo, hst, fetchOrReuse, Git.clone]
        simp [hf, hre, hdk, hbres, htp1, fetchCount_append, fetchCount_cons, hcz1,
          hv, Ne.symm hv]
    · simp only [process_line, hp, build_repo, hst, fetchOrReuse, Git.clone]
      simp [hf, hre, hdk, hbres, htp1, checkoutCount_append, checkoutCount_cons, hcz2]
  | true =>
    refine ⟨?_, ?_, ?_⟩
    · simp [process_line, hp, hpl buildfile, build_repo, hst, fetchOrReuse, Git.clone,
        hf, hre, hdk, hbres, htp1, pyStrOpt, hrec]
    · intro v
      by_cases hv : v = u
      · subst hv
        simp only [process_line, hp, hpl buildfile, build_repo, hst, fetchOrReuse,
          Git.clone]
        simp [hpl buildfile, hf, hre, hdk, hbres, htp1, fetchCount_append,
          fetchCount_cons, hcz1]
      · simp only [process_line, hp, hpl buildfile, build_repo, hst, fetchOrReuse,
          Git.clone]
        simp [hpl buildfile, hf, hre, hdk, hbres, htp1, fetchCount_append,
          fetchCount_cons, hcz1, hv, Ne.symm hv]
    · simp only [process_line, hp, hpl buildfile, build_repo, hst, fetchOrReuse, Git.clone]
      simp [hpl buildfile, hf, hre, hdk, hbres, htp1, checkoutCount_append,
        checkoutCount_cons, hcz2]

theorem accumRefs_le : ∀ (lines rs : List String), rs.length ≤ (accumRefs rs lines).length := by
  intro lines
  induction lines with
  | nil => intro rs; simp [accumRefs]
  | cons l ls ih =>
    intro rs
    have h1 : rs.length ≤ (match lineKey l with
        | some (_, r) => insertNew rs r
        | none => rs).length := by
      cases hk : lineKey l with
      | none => simp
      | some p =>
        obtain ⟨x, r⟩ := p
        simp only [insertNew]
        by_cases hr : r ∈ rs <;> simp [hr]
    calc rs.length ≤ _ := h1
      _ ≤ _ := ih _

theorem single_url_loop (w : World) (hw : AllOk w) (prefill : Bool) (ns : Option String)
    (push : Bool) (reg : Option String) (buildfile : String) (u : String) :
    ∀ (lines rs : List String) (c : Nat) (st : St) (summary : Summary),
      (∀ x ∈ lines, ∃ r, lineKey x = some (u, r)) →
      st.processed = procState w u rs →
      (process_lines w prefill ns push reg buildfile c lines st summary).1.processed =
        procState w u (accumRefs rs lines) ∧
      (∀ v, fetchCount
        (process_lines w prefill ns push reg buildfile c lines st summary).2.2 v = 0) ∧
      checkoutCount
        (process_lines w prefill ns push reg buildfile c lines st summary).2.2 u =
        (accumRefs rs lines).length - rs.length := by
  intro lines
  induction lines with
  | nil =>
    intro rs c st summary hl hst
    simp [process_lines, accumRefs, hst]
  | cons l ls ih =>
    intro rs c st summary hl hst
    obtain ⟨r, hr⟩ := hl l (List.mem_cons_self l ls)
    have hl' : ∀ x ∈ ls, ∃ rr, lineKey x = some (u, rr) :=
      fun x hx => hl x (List.mem_cons_of_mem l hx)
    have hacc : accumRefs rs (l :: ls) =
        accumRefs (insertNew rs r) ls := by
      simp [accumRefs, hr]
    by_cases hmem : r ∈ rs
    · obtain ⟨h1, h2, h3⟩ := process_line_hit w hw prefill ns push reg buildfile (c + 1)
        l u r rs st summary hr hst hmem
      have ihh := ih rs (c + 1)
        (process_line w prefill ns push reg buildfile (c + 1) l st summary).1
        (process_line w prefill ns push reg buildfile (c + 1) l st summary).2.1
        hl' (by rw [h1, hst])
      have hins : insertNew rs r = rs := by simp [insertNew, hmem]
      rw [hacc, hins]
      refine ⟨?_, ?_, ?_⟩
      · simp only [process_lines]
        exact ihh.1
      · intro v
        simp only [process_lines, fetchCount_append]
        rw [h2 v, ihh.2.1 v]
      · simp only [process_lines, checkoutCount_append]
        rw [h3 u, ihh.2.2]
        omega
    · obtain ⟨h1, h1f, h2, h3⟩ := process_line_miss w hw prefill ns push reg buildfile
        (c + 1) l u r rs st summary hr hst hmem
      have ihh := ih (rs ++ [r]) (c + 1)
        (process_line w prefill ns push reg buildfile (c + 1) l st summary).1
        (process_line w prefill ns push reg buildfile (c + 1) l st summary).2.1
        hl' h1
      have hins : insertNew rs r = rs ++ [r] := by simp [insertNew, hmem]
      have hle := accumRefs_le ls (rs ++ [r])
      rw [hacc, hins]
      refine ⟨?_, ?_, ?_⟩
      · simp only [process_lines]
        exact ihh.1
      · intro v
        simp only [process_lines, fetchCount_append]
        rw [h2 v, ihh.2.1 v]
      · simp only [process_lines, checkoutCount_append]
        rw [h3, ihh.2.2]
        simp only [List.length_append, List.length_cons, List.length_nil] at hle ⊢
        omega

/-- C3 amended: for a manifest file whose N ≥ 1 entries all name the same
sourceURL, processed from a fresh cache with every collaborator operation
succeeding, exactly one fetch of that URL occurs and exactly M checkout
operations, where M is the number of distinct resolved revisions among the
entries (the clone itself checks out the first revision).  The original
unconditional claim fails when the fetch itself fails: a failed clone
registers no handle, so a later entry for the same URL fetches again. -/
theorem claim_C3_amended (w : World) (hw : AllOk w) (prefill : Bool) (ns : Option String)
    (push : Bool) (reg : Option String) (buildfile : String) (c : Nat) (u l0 : String)
    (ls : List String) (summary : Summary)
    (hl : ∀ x ∈ l0 :: ls, ∃ r, lineKey x = some (u, r)) :
    fetchCount (process_lines w prefill ns push reg buildfile c (l0 :: ls) St.init
      summary).2.2 u = 1 ∧
    checkoutCount (process_lines w prefill ns push reg buildfile c (l0 :: ls) St.init
      summary).2.2 u = (accumRefs [] (l0 :: ls)).length := by
  obtain ⟨r0, hr0⟩ := hl l0 (List.mem_cons_self l0 ls)
  obtain ⟨h1, h2, h3⟩ := process_line_first w hw prefill ns push reg buildfile (c + 1)
    l0 u r0 St.init summary hr0 rfl
  have ihh := single_url_loop w hw prefill ns push reg buildfile u ls [r0] (c + 1)
    (process_line w prefill ns push reg buildfile (c + 1) l0 St.init summary).1
    (process_line w prefill ns push reg buildfile (c + 1) l0 St.init summary).2.1
    (fun x hx => hl x (List.mem_cons_of_mem l0 hx)) h1
  have hacc : accumRefs [] (l0 :: ls) = accumRefs [r0] ls := by
    simp [accumRefs, hr0, insertNew]
  have hle := accumRefs_le ls [r0]
  constructor
  · simp only [process_lines, fetchCount_append]
    rw [h2 u, ihh.2.1 u]
    simp
  · simp only [process_lines, checkoutCount_append]
    rw [h3, ihh.2.2, hacc]
    simp only [List.length_cons, List.length_nil] at hle ⊢
    omega

/-- C3 counterexample: when fetching fails, a run over two entries for the
same source URL performs two fetch attempts of that URL — the failed fetch
of the first entry is not remembered, violating "at most one network fetch
per distinct source URL per run ... including when an earlier entry for
that URL failed". -/
theorem claim_C3_counterexample :
    fetchCount
      (build_library wFetchFail (some "/m") none none false false none St.init).2.2 "u"
      = 2 := by
  decide

theorem claim_C3_witness :
    fetchCount (process_lines wTwice true none false none "img" 0
      ["u\n", "t u B:dev\n", "u\n"] St.init Summary.init).2.2 "u" = 1 ∧
    checkoutCount (process_lines wTwice true none false none "img" 0
      ["u\n", "t u B:dev\n", "u\n"] St.init Summary.init).2.2 "u" =
      (accumRefs [] ["u\n", "t u B:dev\n", "u\n"]).length :=
  claim_C3_amended wTwice
    ⟨fun _ => rfl, fun _ _ => rfl, fun _ _ => rfl, fun _ _ => by simp [mkWorld, wTwice],
     fun _ => rfl, fun _ _ _ => rfl, fun _ => rfl⟩
    true none false none "img" 0 "u" "u\n" ["t u B:dev\n", "u\n"] Summary.init
    (by
      intro x hx
      simp only [List.mem_cons, List.not_mem_nil, or_false] at hx
      rcases hx with h | h | h <;> subst h
      · exact ⟨"refs/heads/master", by decide⟩
      · exact ⟨"refs/heads/dev", by decide⟩
      · exact ⟨"refs/heads/master", by decide⟩)

end Brew
